import Mathlib

/-!
Verification development for the ParallelTransformer layer-stack engine
(onmt/modules/ParallelTransformer/Models.py).

The stacks are embedded shallowly: tensors, sub-layer bodies and the
embedding/time-encoding pipeline are abstracted as function fields of the
stack records (their internals live outside the file under scrutiny), while
the control flow of the stack methods — the memory-bank aggregation loop,
the checkpoint branch, the grow-mode split at the pretrained boundary, the
causal-mask construction, layer growth and the incremental decode step —
is translated line by line.
-/

set_option autoImplicit false

namespace ParallelTransformer

/-- Modelled from the spec: the reserved PAD token id supplied via global
configuration (onmt.Constants.PAD, not part of the sources under scrutiny);
the spec scenario fixes PAD = 0. -/
def PAD : Nat := 0

/-- The time-encoding strategy identifier (opt.time in the source). -/
inductive TimeKind where
  | positional
  | gru
  | lstm
deriving DecidableEq, Repr

/-- Fatal errors the stack methods can raise: tensor/list indexing out of
range (IndexError), reading pretrained_point before mark_pretrained was
ever called (AttributeError), subscripting a None buffer (TypeError), and
an assertion failure. -/
inductive ModelErr where
  | indexError
  | attributeError
  | noneSubscript
  | assertionFailed
deriving DecidableEq, Repr

/-- Boolean success test for a fallible computation. -/
def isOkB {ε γ : Type} : Except ε γ → Bool
  | .ok _ => true
  | .error _ => false

/-- mask_src computation (input.data.eq(PAD)): true where the token is PAD. -/
def eqPadMask (input : List Nat) : List Bool :=
  input.map (fun t => decide (t = PAD))

/-- pad_mask computation (input.data.ne(PAD)): true where the token is not PAD. -/
def nePadMask (input : List Nat) : List Bool :=
  input.map (fun t => decide (t ≠ PAD))

/-- One encoder layer (ParallelEncoderLayer). Its full-mode forward maps
(context, mask_src, pad_mask) to (new context, normalized pre-attention
input). Modelled from the spec: the sub-layer internals of
ParallelEncoderLayer (attention, feed-forward) are outside the sources
under scrutiny and are abstracted into the function field `body`; the
parameters of its pre-attention processing unit are kept explicit in
`preprocess_attn` because growth splices into them. -/
structure EncLayer (α π : Type) where
  body : α → List Bool → List Bool → α × α
  preprocess_attn : π

/-- The encoder stack (ParallelTransformerEncoder). The embedding table,
time encoder and pre/post processing units are outside the sources under
scrutiny; modelled from the spec as opaque function fields, with the
post-processing parameters kept explicit because growth replaces them. -/
structure Encoder (α π : Type) where
  layers : Nat
  layer_modules : List (EncLayer α π)
  word_lut : List Nat → α
  time : TimeKind
  scaleEmb : α → α
  time_transformer : α → α
  preprocess_layer : α → α
  postprocess_params : π
  postprocess_layer : α → α
  pretrained_point : Option Nat
  new_modules : List (EncLayer α π)
  training : Bool

variable {α τ β π : Type}

/-- The shared embedding pipeline of forward and forward_grow (lines
100-109): embedding lookup, scaling by sqrt(model_size) only under
positional encoding, time transformer (tuple-first extraction folded in),
then the dropout preprocess layer. -/
def Encoder.embed (enc : Encoder α π) (input : List Nat) : α :=
  let emb := enc.word_lut input
  let emb := if enc.time = TimeKind.positional then enc.scaleEmb emb else emb
  let emb := enc.time_transformer emb
  enc.preprocess_layer emb

/-- The encoder layer loop of full-mode forward (lines 120-131): runs the
layers in order threading the context, collecting each layer's normalized
pre-attention input except at layer index 0, and recording for each layer
whether the checkpointed path was taken (the branch at line 123:
len(layer_modules) - i <= checkpointing and training; the checkpointed call
computes the same forward value). Returns (final context, memory bank
collected so far, checkpoint trace). -/
def encLoop (k : Nat) (training : Bool) (total : Nat) (mask pad : List Bool) :
    List (EncLayer α π) → Nat → α → α × List α × List Bool
  | [], _, ctx => (ctx, [], [])
  | layer :: rest, i, ctx =>
    let cp := decide (total - i ≤ k) && training
    let r := layer.body ctx mask pad
    let rr := encLoop k training total mask pad rest (i + 1) r.1
    (rr.1, (if 0 < i then r.2 :: rr.2.1 else rr.2.1), cp :: rr.2.2)

/-- Full-mode encoder forward (grow=False path of lines 99-146), with the
checkpoint trace of the layer loop returned alongside: produces
((memory bank, mask_src), checkpoint trace). -/
def Encoder.forwardFull (k : Nat) (enc : Encoder α π) (input : List Nat) :
    (List α × List Bool) × List Bool :=
  let emb := enc.embed input
  let mask_src := eqPadMask input
  let pad_mask := nePadMask input
  let r := encLoop k enc.training enc.layer_modules.length mask_src pad_mask
    enc.layer_modules 0 emb
  let context := enc.postprocess_layer r.1
  ((r.2.1 ++ [context], mask_src), r.2.2)

/-- The per-layer normalized pre-attention inputs of a run of the layer
list on a given starting context, in layer order (reference form used to
state what the memory bank contains). -/
def encNormInputs (mask pad : List Bool) :
    List (EncLayer α π) → α → List α
  | [], _ => []
  | layer :: rest, ctx =>
    let r := layer.body ctx mask pad
    r.2 :: encNormInputs mask pad rest r.1

/-- The context after running the layer list in order (reference form). -/
def encFinalCtx (mask pad : List Bool) :
    List (EncLayer α π) → α → α
  | [], ctx => ctx
  | layer :: rest, ctx => encFinalCtx mask pad rest (layer.body ctx mask pad).1

/-- mark_pretrained (lines 80-82): records the current layer count. -/
def Encoder.mark_pretrained (enc : Encoder α π) : Encoder α π :=
  { enc with pretrained_point := some enc.layers }

/-- The pretrained-part loop of forward_grow (lines 181-188): runs
pretrained_point many layers from index 0, fetched by index, skipping the
norm input of layer index 0 in the bank. -/
def encGrowLoopA (mask pad : List Bool) (modules : List (EncLayer α π)) :
    Nat → Nat → α → Except ModelErr (α × List α)
  | _, 0, ctx => .ok (ctx, [])
  | i, n + 1, ctx =>
    match modules[i]? with
    | none => .error .indexError
    | some layer =>
      let r := layer.body ctx mask pad
      match encGrowLoopA mask pad modules (i + 1) n r.1 with
      | .error e => .error e
      | .ok (fin, bank) => .ok (fin, if 0 < i then r.2 :: bank else bank)

/-- The new-layers loop of forward_grow (lines 191-196): runs the remaining
layers from the pretrained point, always appending the norm input. -/
def encGrowLoopB (mask pad : List Bool) (modules : List (EncLayer α π)) :
    Nat → Nat → α → Except ModelErr (α × List α)
  | _, 0, ctx => .ok (ctx, [])
  | i, n + 1, ctx =>
    match modules[i]? with
    | none => .error .indexError
    | some layer =>
      let r := layer.body ctx mask pad
      match encGrowLoopB mask pad modules (i + 1) n r.1 with
      | .error e => .error e
      | .ok (fin, bank) => .ok (fin, r.2 :: bank)

/-- forward_grow (lines 148-210): reading pretrained_point before
mark_pretrained raises (AttributeError); otherwise the pretrained layers
run first (under no_grad, which does not change forward values), then the
new layers, then postprocessing, and the final context joins the bank. -/
def Encoder.forward_grow (enc : Encoder α π) (input : List Nat) :
    Except ModelErr (List α × List Bool) :=
  match enc.pretrained_point with
  | none => .error .attributeError
  | some p =>
    let emb := enc.embed input
    let mask_src := eqPadMask input
    let pad_mask := nePadMask input
    match encGrowLoopA mask_src pad_mask enc.layer_modules 0 p emb with
    | .error e => .error e
    | .ok (ctx1, bank1) =>
      match encGrowLoopB mask_src pad_mask enc.layer_modules p (enc.layers - p) ctx1 with
      | .error e => .error e
      | .ok (ctx2, bank2) =>
        .ok (bank1 ++ bank2 ++ [enc.postprocess_layer ctx2], mask_src)

/-- Top-level encoder forward (lines 84-146): dispatches on the grow flag;
the full path cannot fail. -/
def Encoder.forward (k : Nat) (enc : Encoder α π) (input : List Nat)
    (grow : Bool) : Except ModelErr (List α × List Bool) :=
  if grow then enc.forward_grow input
  else .ok (enc.forwardFull k input).1

/-- Modelled from the spec: the freshly constructed units used by
add_layers — a default-constructed ParallelEncoderLayer and a
default-constructed PrePostProcessing(model_size, 0, sequence of n) — are
built by code outside the sources under scrutiny, so their default
parameter contents are abstracted into this record. -/
structure EncGrowCfg (α π : Type) where
  freshLayer : EncLayer α π
  fresh_pp_params : π
  fresh_pp_fun : α → α

/-- The loop body of Encoder.add_layers (lines 69-78): for each new layer,
at loop index 0 the fresh layer's pre-attention processing parameters are
overwritten with the stack's current post-processing parameters and the
post-processing unit is replaced by a fresh one; every new layer is
appended to layer_modules. -/
def encAddLoop (cfg : EncGrowCfg α π) :
    Nat → Nat → Encoder α π → Encoder α π
  | _, 0, s => s
  | i, n + 1, s =>
    let layer := cfg.freshLayer
    let layer := if i = 0 then
        { layer with preprocess_attn := s.postprocess_params } else layer
    let s := if i = 0 then
        { s with postprocess_params := cfg.fresh_pp_params,
                 postprocess_layer := cfg.fresh_pp_fun } else s
    encAddLoop cfg (i + 1) n
      { s with layer_modules := s.layer_modules ++ [layer] }

/-- add_layers (lines 64-78): resets new_modules to an empty list, bumps
the layer counter, then runs the append loop. -/
def Encoder.add_layers (cfg : EncGrowCfg α π) (s : Encoder α π) (n : Nat) :
    Encoder α π :=
  encAddLoop cfg 0 n { s with new_modules := [], layers := s.layers + n }

/-- The strict upper-triangle byte matrix np.triu(np.ones((n, n)), k=d):
entry (i, j) is 1 exactly when j ≥ i + d. -/
def triuOnes (n d : Nat) : List (List Nat) :=
  (List.range n).map fun i =>
    (List.range n).map fun j => if i + d ≤ j then 1 else 0

/-- The decoder causal mask buffer built at construction (lines 256-258)
and in renew_buffer (line 263): triu(ones(len_max, len_max), k=1). -/
def causalMaskBuffer (len_max : Nat) : List (List Nat) :=
  triuOnes len_max 1

/-- mask_tgt computation of the decoder forward (lines 320-322): the
PAD-equality mask of the target broadcast against the sliced causal-mask
buffer and thresholded by gt 0; entry (i, j) suppresses when target token
j is PAD or the causal buffer has a positive entry at (i, j). -/
def tgtMask (maskBuf : List (List Nat)) (input : List Nat) : List (List Bool) :=
  (List.range input.length).map fun i =>
    (List.range input.length).map fun j =>
      decide (input.getD j 0 = PAD) || decide (0 < (maskBuf.getD i []).getD j 0)

/-- One decoder layer (DecoderLayer). Modelled from the spec: the
sub-layer internals are outside the sources under scrutiny; `body` is its
full-mode forward (output, memory-bank entry, mask_tgt, mask_src,
pad_mask_tgt, pad_mask_src) to (output, coverage); `stepF` is its
incremental step on a single new position (query, memory-bank entry,
mask_tgt row, mask_src, buffer) to (output, coverage, updated buffer),
which per the spec operates on and returns a single token position;
`preprocess_attn` keeps the pre-attention processing parameters explicit
because growth splices into them. -/
structure DecLayer (α τ β π : Type) where
  body : α → α → List (List Bool) → List Bool → List Bool → List Bool → α × α
  stepF : τ → α → List Bool → List Bool → Option β → τ × τ × β
  preprocess_attn : π

/-- The decoder stack (ParallelTransformerDecoder). Embedding table, time
encoder and pre/post processing are abstracted as function fields (their
internals are outside the sources under scrutiny; step-mode variants are
carried separately because step operates on single positions). -/
structure Decoder (α τ β π : Type) where
  layers : Nat
  layer_modules : List (DecLayer α τ β π)
  word_lut : List Nat → α
  word_lut_step : Nat → τ
  time : TimeKind
  scaleEmb : α → α
  scaleEmbStep : τ → τ
  time_transformer : α → α
  timePosStep : τ → Nat → τ
  timeRecStep : τ → Option β → τ × β
  preprocess_layer : α → α
  preprocessStep : τ → τ
  postprocess_params : π
  postprocess_layer : α → α
  postprocessStep : τ → τ
  mask : List (List Nat)
  pretrained_point : Option Nat
  new_modules : List (DecLayer α τ β π)
  training : Bool

/-- renew_buffer (lines 260-264): rebuilds the causal mask buffer for the
new maximum length (the positional table renewal happens outside the
sources under scrutiny and touches no field of this record). -/
def Decoder.renew_buffer (dec : Decoder α τ β π) (new_len : Nat) :
    Decoder α τ β π :=
  { dec with mask := causalMaskBuffer new_len }

/-- Decoder construction tail (lines 254-258): a decoder as built by
the constructor carries the causal mask buffer for len_max and has no
pretrained_point attribute yet. -/
def Decoder.construct (dec : Decoder α τ β π) (len_max : Nat) :
    Decoder α τ β π :=
  { dec with mask := causalMaskBuffer len_max, pretrained_point := none,
             new_modules := [] }

/-- mark_pretrained (lines 266-268). -/
def Decoder.mark_pretrained (dec : Decoder α τ β π) : Decoder α τ β π :=
  { dec with pretrained_point := some dec.layers }

/-- The shared embedding pipeline of the decoder forward and forward_grow
(lines 306-313). -/
def Decoder.embed (dec : Decoder α τ β π) (input : List Nat) : α :=
  let emb := dec.word_lut input
  let emb := if dec.time = TimeKind.positional then dec.scaleEmb emb else emb
  let emb := dec.time_transformer emb
  dec.preprocess_layer emb

/-- The decoder layer loop of full-mode forward (lines 332-341): each
layer consumes memory-bank entry context[i] (an out-of-range index
raises), and the checkpoint branch of line 334 is recorded in a trace.
Returns (fallible (output, last coverage), checkpoint trace). -/
def decLoop (k : Nat) (training : Bool) (total : Nat) (context : List α)
    (mask_tgt : List (List Bool)) (mask_src pad_mask_tgt pad_mask_src : List Bool) :
    List (DecLayer α τ β π) → Nat → α → Option α →
      Except ModelErr (α × Option α) × List Bool
  | [], _, out, cov => (.ok (out, cov), [])
  | layer :: rest, i, out, cov =>
    let cp := decide (total - i ≤ k) && training
    match context[i]? with
    | none => (.error .indexError, [cp])
    | some ctx_i =>
      let r := layer.body out ctx_i mask_tgt mask_src pad_mask_tgt pad_mask_src
      let rr := decLoop k training total context mask_tgt mask_src pad_mask_tgt
        pad_mask_src rest (i + 1) r.1 (some r.2)
      (rr.1, cp :: rr.2)

/-- Full-mode decoder forward (grow=False path of lines 288-350), with the
checkpoint trace returned alongside: produces (fallible (postprocessed
output, final coverage), checkpoint trace). -/
def Decoder.forwardFull (k : Nat) (dec : Decoder α τ β π) (input : List Nat)
    (context : List α) (src : List Nat) :
    Except ModelErr (α × Option α) × List Bool :=
  let emb := dec.embed input
  let mask_src := eqPadMask src
  let mask_tgt := tgtMask dec.mask input
  let pad_mask_tgt := nePadMask input
  let pad_mask_src := mask_src.map not
  let r := decLoop k dec.training dec.layer_modules.length context mask_tgt
    mask_src pad_mask_tgt pad_mask_src dec.layer_modules 0 emb none
  (match r.1 with
   | .error e => .error e
   | .ok (out, cov) => .ok (dec.postprocess_layer out, cov), r.2)

/-- The shared layer loop of decoder forward_grow (lines 392-403): runs n
layers by index starting at i, each fetched from layer_modules and paired
with memory-bank entry context at the same index. -/
def decGrowLoop (context : List α) (mask_tgt : List (List Bool))
    (mask_src pad_mask_tgt pad_mask_src : List Bool)
    (modules : List (DecLayer α τ β π)) :
    Nat → Nat → α → Option α → Except ModelErr (α × Option α)
  | _, 0, out, cov => .ok (out, cov)
  | i, n + 1, out, cov =>
    match modules[i]? with
    | none => .error .indexError
    | some layer =>
      match context[i]? with
      | none => .error .indexError
      | some ctx_i =>
        let r := layer.body out ctx_i mask_tgt mask_src pad_mask_tgt pad_mask_src
        decGrowLoop context mask_tgt mask_src pad_mask_tgt pad_mask_src modules
          (i + 1) n r.1 (some r.2)

/-- forward_grow of the decoder (lines 352-410): reading pretrained_point
before mark_pretrained raises (AttributeError); otherwise the pretrained
layers run first (under no_grad), then the new layers from the pretrained
point, then postprocessing. -/
def Decoder.forward_grow (dec : Decoder α τ β π) (input : List Nat)
    (context : List α) (src : List Nat) : Except ModelErr (α × Option α) :=
  match dec.pretrained_point with
  | none => .error .attributeError
  | some p =>
    let emb := dec.embed input
    let mask_src := eqPadMask src
    let mask_tgt := tgtMask dec.mask input
    let pad_mask_tgt := nePadMask input
    let pad_mask_src := mask_src.map not
    match decGrowLoop context mask_tgt mask_src pad_mask_tgt pad_mask_src
        dec.layer_modules 0 p emb none with
    | .error e => .error e
    | .ok (out, cov) =>
      match decGrowLoop context mask_tgt mask_src pad_mask_tgt pad_mask_src
          dec.layer_modules p (dec.layers - p) out cov with
      | .error e => .error e
      | .ok (out2, cov2) => .ok (dec.postprocess_layer out2, cov2)

/-- Top-level decoder forward (lines 288-350): dispatches on the grow
flag. -/
def Decoder.forward (k : Nat) (dec : Decoder α τ β π) (input : List Nat)
    (context : List α) (src : List Nat) (grow : Bool) :
    Except ModelErr (α × Option α) :=
  if grow then dec.forward_grow input context src
  else (dec.forwardFull k input context src).1

/-- Modelled from the spec: the freshly constructed units used by the
decoder add_layers (DecoderLayer and PrePostProcessing defaults are built
by code outside the sources under scrutiny). -/
structure DecGrowCfg (α τ β π : Type) where
  freshLayer : DecLayer α τ β π
  fresh_pp_params : π
  fresh_pp_fun : α → α

/-- The loop body of Decoder.add_layers (lines 276-286), identical in
logic to the encoder one. -/
def decAddLoop (cfg : DecGrowCfg α τ β π) :
    Nat → Nat → Decoder α τ β π → Decoder α τ β π
  | _, 0, s => s
  | i, n + 1, s =>
    let layer := cfg.freshLayer
    let layer := if i = 0 then
        { layer with preprocess_attn := s.postprocess_params } else layer
    let s := if i = 0 then
        { s with postprocess_params := cfg.fresh_pp_params,
                 postprocess_layer := cfg.fresh_pp_fun } else s
    decAddLoop cfg (i + 1) n
      { s with layer_modules := s.layer_modules ++ [layer] }

/-- Decoder add_layers (lines 271-286). -/
def Decoder.add_layers (cfg : DecGrowCfg α τ β π) (s : Decoder α τ β π)
    (n : Nat) : Decoder α τ β π :=
  decAddLoop cfg 0 n { s with new_modules := [], layers := s.layers + n }

/-- The argument the step method hands to the time transformer: the
position offset under positional encoding, or the previous hidden state
under a recurrent strategy. -/
inductive TimeStepArg (β : Type) where
  | positional (t : Nat)
  | recurrent (prev_h : Option β)
deriving Repr

/-- Execution trace of one decoder step call: the time-transformer
argument actually passed (none when the call failed before reaching it)
and the query length observed before each per-layer assertion. -/
structure StepTrace (β : Type) where
  timeArg : Option (TimeStepArg β)
  queryLens : List Nat

/-- The layer loop of the decoder step (lines 472-479): per layer, fetch
buffer[i] when a buffer is present (out of range raises), assert the query
length is 1, fetch memory-bank entry context[i], run the layer's
incremental step, and collect the updated per-layer buffers. The observed
query lengths are recorded alongside. -/
def decStepLoop (context : List α) (mask_tgt_row mask_src : List Bool)
    (buffer : Option (List β)) :
    List (DecLayer α τ β π) → Nat → List τ → Option τ →
      Except ModelErr (List τ × Option τ × List β) × List Nat
  | [], _, out, cov => (.ok (out, cov, []), [])
  | layer :: rest, i, out, cov =>
    let buf_i : Except ModelErr (Option β) :=
      match buffer with
      | none => .ok none
      | some l =>
        match l[i]? with
        | none => .error .indexError
        | some b => .ok (some b)
    match buf_i with
    | .error e => (.error e, [])
    | .ok b =>
      match out with
      | [q] =>
        match context[i]? with
        | none => (.error .indexError, [1])
        | some ctx_i =>
          let r := layer.stepF q ctx_i mask_tgt_row mask_src b
          let rr := decStepLoop context mask_tgt_row mask_src buffer rest
            (i + 1) [r.1] (some r.2.1)
          (match rr.1 with
           | .error e => .error e
           | .ok (o, c, bufs) => .ok (o, c, r.2.2 :: bufs), 1 :: rr.2)
      | _ => (.error .assertionFailed, [out.length])

/-- The part of the decoder step after the time transformer (lines
451-491): dropout preprocessing, mask computation with the causal row
sliced to the last position, the per-layer step loop, stacking the
per-layer buffers and postprocessing the single-position output. -/
def Decoder.stepTail (dec : Decoder α τ β π) (input : List Nat)
    (context : List α) (src : List Nat) (buffer : Option (List β))
    (embT : τ) (targ : TimeStepArg β) :
    Except ModelErr (List τ × Option τ × List β) × StepTrace β :=
  let emb := dec.preprocessStep embT
  let mask_src := eqPadMask src
  let mask_tgt_row := (tgtMask dec.mask input).getD (input.length - 1) []
  let r := decStepLoop context mask_tgt_row mask_src buffer
    dec.layer_modules 0 [emb] none
  (match r.1 with
   | .error e => .error e
   | .ok (out, cov, bufs) => .ok (out.map dec.postprocessStep, cov, bufs),
   ⟨some targ, r.2⟩)

/-- The decoder step (lines 412-491): slices the last input position,
embeds it, applies the time transformer — under positional encoding with
the position offset, otherwise with a previous hidden state that the
source computes as buffer[0] if buffer is None else None (so a None
buffer is subscripted and raises, and a present buffer contributes no
hidden state, with the fresh hidden state written into buffer[0]) — then
runs every layer's incremental step on the single position and
postprocesses. Returns the fallible result together with the step trace. -/
def Decoder.step (dec : Decoder α τ β π) (input : List Nat)
    (context : List α) (src : List Nat) (buffer : Option (List β)) :
    Except ModelErr (List τ × Option τ × List β) × StepTrace β :=
  match input.getLast? with
  | none => (.error .indexError, ⟨none, []⟩)
  | some lastTok =>
    let emb := dec.word_lut_step lastTok
    if dec.time = TimeKind.positional then
      let embT := dec.timePosStep (dec.scaleEmbStep emb) input.length
      Decoder.stepTail dec input context src buffer embT
        (TimeStepArg.positional input.length)
    else
      match buffer with
      | none => (.error .noneSubscript, ⟨none, []⟩)
      | some l =>
        let prev_h : Option β := none
        let r := dec.timeRecStep emb prev_h
        match l with
        | [] => (.error .indexError, ⟨some (.recurrent prev_h), []⟩)
        | _ :: _ =>
          Decoder.stepTail dec input context src (some (l.set 0 r.2)) r.1
            (TimeStepArg.recurrent prev_h)

/-! ### Concrete instances used to evaluate the theorems -/

/-- A concrete two-layer encoder over integer-valued abstract tensors,
matching the spec scenario's layer count; the source ids of the scenario
are [5, 7, 2] with PAD = 0. -/
def encEx : Encoder Int Int where
  layers := 2
  layer_modules :=
    [{ body := fun c _ _ => (c + 1, c * 2), preprocess_attn := 10 },
     { body := fun c _ _ => (c + 3, c * 5), preprocess_attn := 11 }]
  word_lut := fun l => Int.ofNat l.length
  time := TimeKind.positional
  scaleEmb := fun x => x * 2
  time_transformer := fun x => x + 1
  preprocess_layer := fun x => x
  postprocess_params := 7
  postprocess_layer := fun x => x + 100
  pretrained_point := none
  new_modules := []
  training := false

/-- A concrete one-layer decoder over integer-valued abstract tensors. -/
def decEx : Decoder Int Int Int Int where
  layers := 1
  layer_modules :=
    [{ body := fun out c _ _ _ _ => (out + c, out - c),
       stepF := fun q c _ _ b => (q + c, q * c, b.getD 0 + 1),
       preprocess_attn := 20 }]
  word_lut := fun l => Int.ofNat l.length
  word_lut_step := fun t => Int.ofNat t
  time := TimeKind.positional
  scaleEmb := fun x => x * 2
  scaleEmbStep := fun x => x * 2
  time_transformer := fun x => x + 1
  timePosStep := fun x t => x + Int.ofNat t
  timeRecStep := fun x h => (x + h.getD 0, x - 1)
  preprocess_layer := fun x => x
  preprocessStep := fun x => x
  postprocess_params := 9
  postprocess_layer := fun x => x + 100
  postprocessStep := fun x => x + 100
  mask := causalMaskBuffer 4
  pretrained_point := none
  new_modules := []
  training := false

/-- The same decoder under a recurrent time-encoding strategy. -/
def decExRec : Decoder Int Int Int Int :=
  { decEx with time := TimeKind.gru }

/-- Concrete fresh-construction data for encoder growth. -/
def encCfgEx : EncGrowCfg Int Int where
  freshLayer := { body := fun c _ _ => (c, c), preprocess_attn := 1 }
  fresh_pp_params := 2
  fresh_pp_fun := fun x => x

/-- Concrete fresh-construction data for decoder growth. -/
def decCfgEx : DecGrowCfg Int Int Int Int where
  freshLayer := { body := fun out _ _ _ _ _ => (out, out),
                  stepF := fun q _ _ _ _ => (q, q, 0),
                  preprocess_attn := 1 }
  fresh_pp_params := 2
  fresh_pp_fun := fun x => x

/-! ### Encoder loop lemmas -/

theorem encLoop_fst (k : Nat) (tr : Bool) (total : Nat) (mask pad : List Bool) :
    ∀ (ls : List (EncLayer α π)) (i : Nat) (ctx : α),
      (encLoop k tr total mask pad ls i ctx).1 = encFinalCtx mask pad ls ctx
  | [], _, _ => rfl
  | _ :: rest, i, ctx => by
    simp only [encLoop, encFinalCtx]
    exact encLoop_fst k tr total mask pad rest (i + 1) _

theorem encLoop_bank_pos (k : Nat) (tr : Bool) (total : Nat) (mask pad : List Bool) :
    ∀ (ls : List (EncLayer α π)) (i : Nat) (ctx : α), 1 ≤ i →
      (encLoop k tr total mask pad ls i ctx).2.1 = encNormInputs mask pad ls ctx
  | [], _, _, _ => rfl
  | _ :: rest, i, ctx, h => by
    simp only [encLoop, encNormInputs]
    rw [if_pos (by omega : 0 < i)]
    rw [encLoop_bank_pos k tr total mask pad rest (i + 1) _ (by omega)]

theorem encLoop_bank_zero (k : Nat) (tr : Bool) (total : Nat) (mask pad : List Bool)
    (ls : List (EncLayer α π)) (ctx : α) :
    (encLoop k tr total mask pad ls 0 ctx).2.1
      = (encNormInputs mask pad ls ctx).tail := by
  cases ls with
  | nil => rfl
  | cons layer rest =>
    simp only [encLoop, encNormInputs]
    rw [if_neg (by omega : ¬ 0 < 0)]
    rw [encLoop_bank_pos k tr total mask pad rest 1 _ (by omega)]
    rfl

theorem encNormInputs_length (mask pad : List Bool) :
    ∀ (ls : List (EncLayer α π)) (ctx : α),
      (encNormInputs mask pad ls ctx).length = ls.length
  | [], _ => rfl
  | _ :: rest, ctx => by
    simp only [encNormInputs, List.length_cons]
    rw [encNormInputs_length mask pad rest]

/-- The memory bank of a full-mode encoder forward, in closed form: the
normalized pre-attention inputs of all layers except layer index 0, in
layer order, followed by the post-processed final context. -/
theorem encForwardFull_bank (k : Nat) (enc : Encoder α π) (input : List Nat) :
    (enc.forwardFull k input).1.1
      = (encNormInputs (eqPadMask input) (nePadMask input) enc.layer_modules
          (enc.embed input)).tail
        ++ [enc.postprocess_layer (encFinalCtx (eqPadMask input) (nePadMask input)
          enc.layer_modules (enc.embed input))] := by
  simp only [Encoder.forwardFull]
  rw [encLoop_bank_zero, encLoop_fst]

/-- The memory bank of a full-mode encoder forward has exactly one entry
per encoder layer, provided the stack has at least one layer. -/
theorem encForwardFull_bank_length (k : Nat) (enc : Encoder α π) (input : List Nat)
    (h : 1 ≤ enc.layer_modules.length) :
    (enc.forwardFull k input).1.1.length = enc.layer_modules.length := by
  rw [encForwardFull_bank]
  simp only [List.length_append, List.length_tail, List.length_cons,
    List.length_nil, encNormInputs_length]
  omega

/-- C1: for every input token sequence, the encoder stack's full-mode
forward returns a memory bank with exactly one entry per encoder layer,
composed in layer order of the normalized pre-attention input of every
layer except layer index 0 followed by the final post-processed output. -/
theorem C1_encoder_memory_bank (k : Nat) (enc : Encoder α π) (input : List Nat)
    (h : 1 ≤ enc.layer_modules.length) :
    (enc.forwardFull k input).1.1
      = (encNormInputs (eqPadMask input) (nePadMask input) enc.layer_modules
          (enc.embed input)).tail
        ++ [enc.postprocess_layer (encFinalCtx (eqPadMask input) (nePadMask input)
          enc.layer_modules (enc.embed input))]
    ∧ (enc.forwardFull k input).1.1.length = enc.layer_modules.length :=
  ⟨encForwardFull_bank k enc input, encForwardFull_bank_length k enc input h⟩

/-- Evaluation of C1 on the two-layer concrete encoder and the scenario
source ids. -/
theorem C1_encoder_memory_bank_witness :
    (encEx.forwardFull 0 [5, 7, 2]).1.1
      = (encNormInputs (eqPadMask [5, 7, 2]) (nePadMask [5, 7, 2]) encEx.layer_modules
          (encEx.embed [5, 7, 2])).tail
        ++ [encEx.postprocess_layer (encFinalCtx (eqPadMask [5, 7, 2]) (nePadMask [5, 7, 2])
          encEx.layer_modules (encEx.embed [5, 7, 2]))]
    ∧ (encEx.forwardFull 0 [5, 7, 2]).1.1.length = encEx.layer_modules.length :=
  C1_encoder_memory_bank 0 encEx [5, 7, 2] (by decide)

/-- C8 counterexample: in the spec scenario (2-layer encoder, source ids
[5, 7, 2] with PAD = 0), the memory bank does not have 3 entries. -/
theorem C8_counterexample :
    ¬ ((encEx.forwardFull 0 [5, 7, 2]).1.1.length = 3) := by decide

/-- C8 (amended): in the spec scenario the 2-layer encoder's memory bank
has exactly 2 entries ((2 layers − 1 skipped) + 1 final). -/
theorem C8_scenario_bank_size :
    encEx.layer_modules.length = 2
    ∧ (encEx.forwardFull 0 [5, 7, 2]).1.1.length = 2 := by decide

/-! ### Growth lemmas -/

theorem getD_append_length {γ : Type} (l₁ l₂ : List γ) (x d : γ) :
    (l₁ ++ x :: l₂).getD l₁.length d = x := by
  induction l₁ with
  | nil => rfl
  | cons a t ih => simpa using ih

theorem encAddLoop_pos (cfg : EncGrowCfg α π) :
    ∀ (n i : Nat) (s : Encoder α π), 1 ≤ i →
      encAddLoop cfg i n s
        = { s with layer_modules := s.layer_modules ++ List.replicate n cfg.freshLayer }
  | 0, i, s, _ => by simp [encAddLoop]
  | n + 1, i, s, h => by
    simp only [encAddLoop, if_neg (by omega : ¬ i = 0)]
    rw [encAddLoop_pos cfg n (i + 1) _ (by omega)]
    simp [List.replicate_succ, List.append_assoc]

theorem decAddLoop_pos (cfg : DecGrowCfg α τ β π) :
    ∀ (n i : Nat) (s : Decoder α τ β π), 1 ≤ i →
      decAddLoop cfg i n s
        = { s with layer_modules := s.layer_modules ++ List.replicate n cfg.freshLayer }
  | 0, i, s, _ => by simp [decAddLoop]
  | n + 1, i, s, h => by
    simp only [decAddLoop, if_neg (by omega : ¬ i = 0)]
    rw [decAddLoop_pos cfg n (i + 1) _ (by omega)]
    simp [List.replicate_succ, List.append_assoc]

/-- Closed form of Encoder.add_layers for at least one new layer: the
first appended layer carries the old post-processing parameters in its
pre-attention processing unit, the later appended layers are fresh, and
the post-processing unit is replaced by the fresh one. -/
theorem encoder_add_layers_succ (cfg : EncGrowCfg α π) (s : Encoder α π) (m : Nat) :
    s.add_layers cfg (m + 1)
      = { s with new_modules := [], layers := s.layers + (m + 1),
                 postprocess_params := cfg.fresh_pp_params,
                 postprocess_layer := cfg.fresh_pp_fun,
                 layer_modules := s.layer_modules
                   ++ ({ cfg.freshLayer with preprocess_attn := s.postprocess_params }
                       :: List.replicate m cfg.freshLayer) } := by
  simp only [Encoder.add_layers, encAddLoop, if_pos rfl]
  rw [encAddLoop_pos cfg m 1 _ (by omega)]
  simp [List.append_assoc]

/-- Closed form of Decoder.add_layers for at least one new layer. -/
theorem decoder_add_layers_succ (cfg : DecGrowCfg α τ β π) (s : Decoder α τ β π)
    (m : Nat) :
    s.add_layers cfg (m + 1)
      = { s with new_modules := [], layers := s.layers + (m + 1),
                 postprocess_params := cfg.fresh_pp_params,
                 postprocess_layer := cfg.fresh_pp_fun,
                 layer_modules := s.layer_modules
                   ++ ({ cfg.freshLayer with preprocess_attn := s.postprocess_params }
                       :: List.replicate m cfg.freshLayer) } := by
  simp only [Decoder.add_layers, decAddLoop, if_pos rfl]
  rw [decAddLoop_pos cfg m 1 _ (by omega)]
  simp [List.append_assoc]

/-- C3: immediately after add_layers(n) with n ≥ 1, on both the encoder
and the decoder stack: the pre-attention processing parameters of the
first newly appended layer equal the stack's post-processing parameters
from immediately before the call, the post-processing unit is replaced by
a freshly constructed one, and all previously-existing layers are
unchanged. -/
theorem C3_growth_splicing (cfg : EncGrowCfg α π) (cfgD : DecGrowCfg α τ β π)
    (s : Encoder α π) (d : Decoder α τ β π) (n : Nat) (h : 1 ≤ n) :
    (((s.add_layers cfg n).layer_modules.getD s.layer_modules.length
        cfg.freshLayer).preprocess_attn = s.postprocess_params
      ∧ (s.add_layers cfg n).postprocess_params = cfg.fresh_pp_params
      ∧ (s.add_layers cfg n).postprocess_layer = cfg.fresh_pp_fun
      ∧ (s.add_layers cfg n).layer_modules.take s.layer_modules.length
          = s.layer_modules)
    ∧ (((d.add_layers cfgD n).layer_modules.getD d.layer_modules.length
        cfgD.freshLayer).preprocess_attn = d.postprocess_params
      ∧ (d.add_layers cfgD n).postprocess_params = cfgD.fresh_pp_params
      ∧ (d.add_layers cfgD n).postprocess_layer = cfgD.fresh_pp_fun
      ∧ (d.add_layers cfgD n).layer_modules.take d.layer_modules.length
          = d.layer_modules) := by
  obtain ⟨m, rfl⟩ : ∃ m, n = m + 1 := ⟨n - 1, by omega⟩
  rw [encoder_add_layers_succ, decoder_add_layers_succ]
  simp only [getD_append_length, List.take_left]
  simp

/-- Evaluation of C3 on the concrete stacks with one new layer. -/
theorem C3_growth_splicing_witness :
    (((encEx.add_layers encCfgEx 1).layer_modules.getD encEx.layer_modules.length
        encCfgEx.freshLayer).preprocess_attn = encEx.postprocess_params
      ∧ (encEx.add_layers encCfgEx 1).postprocess_params = encCfgEx.fresh_pp_params
      ∧ (encEx.add_layers encCfgEx 1).postprocess_layer = encCfgEx.fresh_pp_fun
      ∧ (encEx.add_layers encCfgEx 1).layer_modules.take encEx.layer_modules.length
          = encEx.layer_modules)
    ∧ (((decEx.add_layers decCfgEx 1).layer_modules.getD decEx.layer_modules.length
        decCfgEx.freshLayer).preprocess_attn = decEx.postprocess_params
      ∧ (decEx.add_layers decCfgEx 1).postprocess_params = decCfgEx.fresh_pp_params
      ∧ (decEx.add_layers decCfgEx 1).postprocess_layer = decCfgEx.fresh_pp_fun
      ∧ (decEx.add_layers decCfgEx 1).layer_modules.take decEx.layer_modules.length
          = decEx.layer_modules) :=
  C3_growth_splicing encCfgEx decCfgEx encEx decEx 1 (by decide)

/-- C7: add_layers(0) is an identity with respect to behaviour — every
subsequent forward (full or grow) and every decoder step returns the same
value as if add_layers(0) had never been called; only the vestigial
new_modules attribute changes. -/
theorem C7_add_layers_zero_identity (k kd : Nat) (cfg : EncGrowCfg α π)
    (cfgD : DecGrowCfg α τ β π) (enc : Encoder α π) (dec : Decoder α τ β π)
    (input tgt src : List Nat) (context : List α) (buffer : Option (List β))
    (g g2 : Bool) :
    (enc.add_layers cfg 0).forward k input g = enc.forward k input g
    ∧ (dec.add_layers cfgD 0).forward kd tgt context src g2
        = dec.forward kd tgt context src g2
    ∧ (dec.add_layers cfgD 0).step tgt context src buffer
        = dec.step tgt context src buffer := by
  cases enc
  cases dec
  exact ⟨rfl, rfl, rfl⟩

/-- C4: invoking a grow-mode forward on a stack on which mark_pretrained
has never been called (its pretrained_point attribute is absent) fails
fatally with the attribute error, on both the encoder and the decoder. -/
theorem C4_grow_mode_requires_pretrained (k kd : Nat) (enc : Encoder α π)
    (dec : Decoder α τ β π) (input tgt src : List Nat) (context : List α)
    (he : enc.pretrained_point = none) (hd : dec.pretrained_point = none) :
    enc.forward k input true = .error .attributeError
    ∧ dec.forward kd tgt context src true = .error .attributeError := by
  refine ⟨?_, ?_⟩
  · simp [Encoder.forward, Encoder.forward_grow, he]
  · simp [Decoder.forward, Decoder.forward_grow, hd]

/-- Evaluation of C4 on the concrete stacks, whose pretrained_point was
never set. -/
theorem C4_grow_mode_requires_pretrained_witness :
    encEx.forward 0 [5, 7, 2] true = .error .attributeError
    ∧ decEx.forward 0 [3, 0] ([] : List Int) [5, 7, 2] true
        = .error .attributeError :=
  C4_grow_mode_requires_pretrained 0 0 encEx decEx [5, 7, 2] [3, 0] [5, 7, 2] []
    rfl rfl

/-! ### Causal mask -/

theorem getD_of_getElem?_eq {γ : Type} {l : List γ} {i : Nat} {v d : γ}
    (h : l[i]? = some v) : l.getD i d = v := by
  rw [List.getD_eq_getElem?_getD, h]
  rfl

theorem triuOnes_entry (L d i j : Nat) (hi : i < L) (hj : j < L) :
    ((triuOnes L d).getD i []).getD j 0 = if i + d ≤ j then 1 else 0 := by
  have hrow : (triuOnes L d)[i]?
      = some ((List.range L).map fun j => if i + d ≤ j then 1 else 0) := by
    simp [triuOnes, hi]
  rw [getD_of_getElem?_eq hrow]
  have hcell : ((List.range L).map fun j => if i + d ≤ j then (1 : Nat) else 0)[j]?
      = some (if i + d ≤ j then 1 else 0) := by
    simp [hj]
  rw [getD_of_getElem?_eq hcell]

/-- C5: for every maximum length L — whether fixed at construction or
installed later by renew_buffer — the decoder causal mask is L×L with
entry (i, j) suppressing (equal to 1) exactly when j > i, independent of
any batch content; for L = 2 it is the pattern [[0, 1], [0, 0]]. -/
theorem C5_causal_mask (dec : Decoder α τ β π) (L i j : Nat)
    (hi : i < L) (hj : j < L) :
    ((dec.construct L).mask = causalMaskBuffer L
      ∧ (dec.renew_buffer L).mask = causalMaskBuffer L)
    ∧ (((causalMaskBuffer L).getD i []).getD j 0 = 1 ↔ i < j)
    ∧ ((causalMaskBuffer L).length = L
      ∧ ∀ row ∈ causalMaskBuffer L, row.length = L)
    ∧ causalMaskBuffer 2 = [[0, 1], [0, 0]] := by
  refine ⟨⟨rfl, rfl⟩, ?_, ⟨?_, ?_⟩, by decide⟩
  · rw [causalMaskBuffer, triuOnes_entry L 1 i j hi hj]
    constructor
    · intro h
      by_contra hc
      rw [if_neg (by omega)] at h
      cases h
    · intro h
      rw [if_pos (by omega)]
  · simp [causalMaskBuffer, triuOnes]
  · intro row hrow
    simp only [causalMaskBuffer, triuOnes, List.mem_map] at hrow
    obtain ⟨a, _, hres⟩ := hrow
    rw [← hres]
    simp

/-- Evaluation of C5 on the concrete decoder at L = 2, i = 0, j = 1. -/
theorem C5_causal_mask_witness :
    ((decEx.construct 2).mask = causalMaskBuffer 2
      ∧ (decEx.renew_buffer 2).mask = causalMaskBuffer 2)
    ∧ (((causalMaskBuffer 2).getD 0 []).getD 1 0 = 1 ↔ 0 < 1)
    ∧ ((causalMaskBuffer 2).length = 2
      ∧ ∀ row ∈ causalMaskBuffer 2, row.length = 2)
    ∧ causalMaskBuffer 2 = [[0, 1], [0, 0]] :=
  C5_causal_mask decEx 2 0 1 (by decide) (by decide)

/-! ### Decoder full-mode forward: memory-bank indexing -/

theorem decLoop_ok_of_le (k : Nat) (tr : Bool) (total : Nat) (context : List α)
    (mt : List (List Bool)) (ms pmt pms : List Bool)
    (ls : List (DecLayer α τ β π)) :
    ∀ (i : Nat) (out : α) (cov : Option α),
      i + ls.length ≤ context.length →
      isOkB (decLoop k tr total context mt ms pmt pms ls i out cov).1 = true := by
  induction ls with
  | nil => exact fun i out cov _ => rfl
  | cons layer rest ih =>
    intro i out cov h
    simp only [List.length_cons] at h
    have hi : i < context.length := by omega
    simp only [decLoop, List.getElem?_eq_getElem hi]
    exact ih (i + 1) _ _ (by omega)

theorem decLoop_err_of_lt (k : Nat) (tr : Bool) (total : Nat) (context : List α)
    (mt : List (List Bool)) (ms pmt pms : List Bool)
    (ls : List (DecLayer α τ β π)) :
    ∀ (i : Nat) (out : α) (cov : Option α),
      i ≤ context.length → context.length < i + ls.length →
      (decLoop k tr total context mt ms pmt pms ls i out cov).1
        = .error .indexError := by
  induction ls with
  | nil =>
    intro i out cov h1 h2
    simp only [List.length_nil] at h2
    omega
  | cons layer rest ih =>
    intro i out cov h1 h2
    simp only [List.length_cons] at h2
    rcases Nat.lt_or_ge i context.length with hi | hi
    · simp only [decLoop, List.getElem?_eq_getElem hi]
      exact ih (i + 1) _ _ (by omega) (by omega)
    · simp only [decLoop, List.getElem?_eq_none hi]

theorem decForwardFull_err (kd : Nat) (dec : Decoder α τ β π)
    (tgt src : List Nat) (context : List α)
    (h : context.length < dec.layer_modules.length) :
    (dec.forwardFull kd tgt context src).1 = .error .indexError := by
  simp only [Decoder.forwardFull]
  rw [decLoop_err_of_lt kd dec.training dec.layer_modules.length context
    (tgtMask dec.mask tgt) (eqPadMask src) (nePadMask tgt)
    ((eqPadMask src).map not) dec.layer_modules 0 (dec.embed tgt) none
    (by omega) (by omega)]

theorem decForwardFull_ok (kd : Nat) (dec : Decoder α τ β π)
    (tgt src : List Nat) (context : List α)
    (h : dec.layer_modules.length ≤ context.length) :
    isOkB (dec.forwardFull kd tgt context src).1 = true := by
  have hok := decLoop_ok_of_le kd dec.training dec.layer_modules.length context
    (tgtMask dec.mask tgt) (eqPadMask src) (nePadMask tgt)
    ((eqPadMask src).map not) dec.layer_modules 0 (dec.embed tgt) none (by omega)
  simp only [Decoder.forwardFull]
  cases hq : (decLoop kd dec.training dec.layer_modules.length context
      (tgtMask dec.mask tgt) (eqPadMask src) (nePadMask tgt)
      ((eqPadMask src).map not) dec.layer_modules 0 (dec.embed tgt) none).1 with
  | error e => rw [hq] at hok; cases hok
  | ok v =>
    cases v
    rfl

/-- C2 counterexample: a decoder whose layer count (1) differs from the
length of the supplied memory bank (2) completes its full-mode forward
normally instead of failing. -/
theorem C2_counterexample :
    decEx.layer_modules.length = 1
    ∧ ¬ (([(5 : Int), 9]).length = decEx.layer_modules.length)
    ∧ isOkB (decEx.forward 0 [3, 0] [(5 : Int), 9] [5, 7, 2] false) = true := by
  decide

/-- C2 (amended): the memory bank has one entry per encoder layer, hence
exactly the decoder layer count whenever the stacks are configured with
equal layer counts; the decoder's forward fails — with the fatal index
error — exactly when the memory bank has fewer entries than decoder
layers, and completes when it has at least as many (extra entries are
ignored). -/
theorem C2_memory_bank_vs_decoder (k kd : Nat) (enc : Encoder α π)
    (dec : Decoder α τ β π) (input tgt src : List Nat) (context : List α)
    (h1 : enc.layer_modules.length = dec.layer_modules.length)
    (h2 : 1 ≤ enc.layer_modules.length) :
    (enc.forwardFull k input).1.1.length = dec.layer_modules.length
    ∧ isOkB (dec.forwardFull kd tgt context src).1
        = decide (dec.layer_modules.length ≤ context.length)
    ∧ ((dec.forwardFull kd tgt context src).1 = .error .indexError
        ∨ isOkB (dec.forwardFull kd tgt context src).1 = true) := by
  refine ⟨?_, ?_, ?_⟩
  · rw [encForwardFull_bank_length k enc input h2, h1]
  · rcases Nat.lt_or_ge context.length dec.layer_modules.length with hlt | hle
    · rw [decForwardFull_err kd dec tgt src context hlt]
      rw [decide_eq_false (by omega)]
      rfl
    · rw [decForwardFull_ok kd dec tgt src context hle, decide_eq_true (by omega)]
  · rcases Nat.lt_or_ge context.length dec.layer_modules.length with hlt | hle
    · exact Or.inl (decForwardFull_err kd dec tgt src context hlt)
    · exact Or.inr (decForwardFull_ok kd dec tgt src context hle)

/-- A one-layer concrete encoder matching the one-layer concrete decoder. -/
def encEx1 : Encoder Int Int :=
  { encEx with layers := 1,
               layer_modules := [{ body := fun c _ _ => (c + 1, c * 2),
                                   preprocess_attn := 10 }] }

/-- Evaluation of the amended C2 on equal-count concrete stacks with a
two-entry bank. -/
theorem C2_memory_bank_vs_decoder_witness :
    (encEx1.forwardFull 0 [5, 7, 2]).1.1.length = decEx.layer_modules.length
    ∧ isOkB (decEx.forwardFull 0 [3, 0] [(5 : Int), 9] [5, 7, 2]).1
        = decide (decEx.layer_modules.length ≤ ([(5 : Int), 9]).length)
    ∧ ((decEx.forwardFull 0 [3, 0] [(5 : Int), 9] [5, 7, 2]).1
          = .error .indexError
        ∨ isOkB (decEx.forwardFull 0 [3, 0] [(5 : Int), 9] [5, 7, 2]).1 = true) :=
  C2_memory_bank_vs_decoder 0 0 encEx1 decEx [5, 7, 2] [3, 0] [5, 7, 2]
    [(5 : Int), 9] (by decide) (by decide)

/-! ### Checkpoint traces -/

theorem encLoop_trace_get (k : Nat) (tr : Bool) (total : Nat)
    (mask pad : List Bool) (ls : List (EncLayer α π)) :
    ∀ (i : Nat) (ctx : α) (j : Nat), j < ls.length →
      (encLoop k tr total mask pad ls i ctx).2.2[j]?
        = some (decide (total - (i + j) ≤ k) && tr) := by
  induction ls with
  | nil => intro i ctx j hj; cases hj
  | cons layer rest ih =>
    intro i ctx j hj
    cases j with
    | zero => simp [encLoop]
    | succ j =>
      have hj2 : j < rest.length := by
        simp only [List.length_cons] at hj; omega
      have harith : i + (j + 1) = (i + 1) + j := by omega
      rw [harith]
      simp only [encLoop, List.getElem?_cons_succ]
      exact ih (i + 1) _ j hj2

theorem decLoop_trace_get (k : Nat) (tr : Bool) (total : Nat) (context : List α)
    (mt : List (List Bool)) (ms pmt pms : List Bool)
    (ls : List (DecLayer α τ β π)) :
    ∀ (i : Nat) (out : α) (cov : Option α) (j : Nat), j < ls.length →
      i + ls.length ≤ context.length →
      (decLoop k tr total context mt ms pmt pms ls i out cov).2[j]?
        = some (decide (total - (i + j) ≤ k) && tr) := by
  induction ls with
  | nil => intro i out cov j hj _; cases hj
  | cons layer rest ih =>
    intro i out cov j hj hc
    simp only [List.length_cons] at hj hc
    have hi : i < context.length := by omega
    cases j with
    | zero => simp [decLoop, List.getElem?_eq_getElem hi]
    | succ j =>
      have harith : i + (j + 1) = (i + 1) + j := by omega
      rw [harith]
      simp only [decLoop, List.getElem?_eq_getElem hi, List.getElem?_cons_succ]
      exact ih (i + 1) _ _ j (by omega) (by omega)

/-- C6: during a full-mode forward of the encoder or the decoder, the
checkpointed execution path is taken for layer index i exactly when the
stack is training and (layer count − i) ≤ (checkpoint depth); every other
layer takes the normal path. -/
theorem C6_checkpoint_policy (k kd : Nat) (enc : Encoder α π)
    (dec : Decoder α τ β π) (input tgt src : List Nat) (context : List α)
    (i j : Nat) (hi : i < enc.layer_modules.length)
    (hj : j < dec.layer_modules.length)
    (hctx : dec.layer_modules.length ≤ context.length) :
    ((enc.forwardFull k input).2.getD i false = true
      ↔ (enc.training = true ∧ enc.layer_modules.length - i ≤ k))
    ∧ ((dec.forwardFull kd tgt context src).2.getD j false = true
      ↔ (dec.training = true ∧ dec.layer_modules.length - j ≤ kd)) := by
  constructor
  · have hget := encLoop_trace_get k enc.training enc.layer_modules.length
      (eqPadMask input) (nePadMask input) enc.layer_modules 0 (enc.embed input)
      i hi
    have hfw : (enc.forwardFull k input).2
        = (encLoop k enc.training enc.layer_modules.length (eqPadMask input)
            (nePadMask input) enc.layer_modules 0 (enc.embed input)).2.2 := rfl
    rw [hfw, getD_of_getElem?_eq hget]
    simp only [Nat.zero_add, Bool.and_eq_true, decide_eq_true_eq]
    constructor
    · exact fun h => ⟨h.2, h.1⟩
    · exact fun h => ⟨h.2, h.1⟩
  · have hget := decLoop_trace_get kd dec.training dec.layer_modules.length
      context (tgtMask dec.mask tgt) (eqPadMask src) (nePadMask tgt)
      ((eqPadMask src).map not) dec.layer_modules 0 (dec.embed tgt) none j hj
      (by omega)
    have hfw : (dec.forwardFull kd tgt context src).2
        = (decLoop kd dec.training dec.layer_modules.length context
            (tgtMask dec.mask tgt) (eqPadMask src) (nePadMask tgt)
            ((eqPadMask src).map not) dec.layer_modules 0 (dec.embed tgt)
            none).2 := rfl
    rw [hfw, getD_of_getElem?_eq hget]
    simp only [Nat.zero_add, Bool.and_eq_true, decide_eq_true_eq]
    constructor
    · exact fun h => ⟨h.2, h.1⟩
    · exact fun h => ⟨h.2, h.1⟩

/-- Evaluation of C6 on the concrete stacks at layer index 0. -/
theorem C6_checkpoint_policy_witness :
    ((encEx.forwardFull 1 [5, 7, 2]).2.getD 0 false = true
      ↔ (encEx.training = true ∧ encEx.layer_modules.length - 0 ≤ 1))
    ∧ ((decEx.forwardFull 1 [3, 0] [(5 : Int), 9] [5, 7, 2]).2.getD 0 false = true
      ↔ (decEx.training = true ∧ decEx.layer_modules.length - 0 ≤ 1)) :=
  C6_checkpoint_policy 1 1 encEx decEx [5, 7, 2] [3, 0] [5, 7, 2] [(5 : Int), 9]
    0 0 (by decide) (by decide) (by decide)

/-! ### Decoder step -/

theorem decStepLoop_ok (context : List α) (mtr msrc : List Bool)
    (buffer : Option (List β)) (ls : List (DecLayer α τ β π)) :
    ∀ (i : Nat) (q : τ) (cov : Option τ),
      i + ls.length ≤ context.length →
      (∀ l, buffer = some l → i + ls.length ≤ l.length) →
      ∃ r, decStepLoop context mtr msrc buffer ls i [q] cov
        = (.ok r, List.replicate ls.length 1) := by
  induction ls with
  | nil => exact fun i q cov _ _ => ⟨_, rfl⟩
  | cons layer rest ih =>
    intro i q cov hc hb
    simp only [List.length_cons] at hc
    have hi : i < context.length := by omega
    cases hbuf : buffer with
    | none =>
      subst hbuf
      obtain ⟨r, hr⟩ := ih (i + 1) _ _ (by omega) (fun l hl => by cases hl)
      obtain ⟨o, c, bufs⟩ := r
      simp only [decStepLoop, List.getElem?_eq_getElem hi]
      rw [hr]
      exact ⟨_, rfl⟩
    | some l =>
      subst hbuf
      have hl : i < l.length := by
        have := hb l rfl
        simp only [List.length_cons] at this
        omega
      obtain ⟨r, hr⟩ := ih (i + 1) _ _ (by omega)
        (fun l2 hl2 => by
          cases hl2
          have := hb l rfl
          simp only [List.length_cons] at this
          omega)
      obtain ⟨o, c, bufs⟩ := r
      simp only [decStepLoop, List.getElem?_eq_getElem hi,
        List.getElem?_eq_getElem hl]
      rw [hr]
      exact ⟨_, rfl⟩

theorem stepTail_ok (dec : Decoder α τ β π) (input src : List Nat)
    (context : List α) (buffer : Option (List β)) (embT : τ)
    (targ : TimeStepArg β)
    (hc : dec.layer_modules.length ≤ context.length)
    (hb : ∀ l, buffer = some l → dec.layer_modules.length ≤ l.length) :
    isOkB (dec.stepTail input context src buffer embT targ).1 = true
    ∧ (dec.stepTail input context src buffer embT targ).2.queryLens
        = List.replicate dec.layer_modules.length 1
    ∧ (dec.stepTail input context src buffer embT targ).2.timeArg = some targ := by
  obtain ⟨r, hr⟩ := decStepLoop_ok context
    ((tgtMask dec.mask input).getD (input.length - 1) []) (eqPadMask src)
    buffer dec.layer_modules 0 (dec.preprocessStep embT) none
    (by omega) (fun l hl => by have := hb l hl; omega)
  simp only [Decoder.stepTail]
  rw [hr]
  obtain ⟨o, c, bufs⟩ := r
  exact ⟨rfl, rfl, trivial⟩

/-- C9: in every completing decoder step call, the query passed to each
layer's incremental step has length exactly 1 — the step path slices the
last input position before the layer loop, and the length-1 assertion
observed before every layer step records 1 each time. -/
theorem C9_step_query_length (dec : Decoder α τ β π) (input : List Nat)
    (context : List α) (src : List Nat) (buffer : Option (List β))
    (h1 : input ≠ [])
    (h2 : dec.layer_modules.length ≤ context.length)
    (h3 : ∀ l, buffer = some l → dec.layer_modules.length ≤ l.length ∧ l ≠ [])
    (h4 : buffer = none → dec.time = TimeKind.positional) :
    isOkB (dec.step input context src buffer).1 = true
    ∧ (dec.step input context src buffer).2.queryLens
        = List.replicate dec.layer_modules.length 1 := by
  obtain ⟨lastTok, hlast⟩ : ∃ t, input.getLast? = some t := by
    cases hgl : input.getLast? with
    | none => exact absurd (List.getLast?_eq_none_iff.mp hgl) h1
    | some t => exact ⟨t, rfl⟩
  by_cases hpos : dec.time = TimeKind.positional
  · simp only [Decoder.step, hlast, if_pos hpos]
    have hst := stepTail_ok dec input src context buffer
      (dec.timePosStep (dec.scaleEmbStep (dec.word_lut_step lastTok)) input.length)
      (TimeStepArg.positional input.length) h2 (fun l hl => (h3 l hl).1)
    exact ⟨hst.1, hst.2.1⟩
  · cases hbuf : buffer with
    | none => exact absurd (h4 hbuf) hpos
    | some l =>
      subst hbuf
      obtain ⟨hlen, hne⟩ := h3 l rfl
      cases l with
      | nil => exact absurd rfl hne
      | cons b bs =>
        simp only [Decoder.step, hlast, if_neg hpos]
        have hst := stepTail_ok dec input src context
          (some ((b :: bs).set 0
            (dec.timeRecStep (dec.word_lut_step lastTok) none).2))
          ((dec.timeRecStep (dec.word_lut_step lastTok) none).1)
          (TimeStepArg.recurrent none) h2
          (fun l2 hl2 => by
            cases hl2
            simp only [List.length_set]
            exact hlen)
        exact ⟨hst.1, hst.2.1⟩

/-- Evaluation of C9 on the concrete positional decoder, target prefix
[3, 0], one-entry memory bank, fresh (absent) buffer. -/
theorem C9_step_query_length_witness :
    isOkB (decEx.step [3, 0] [(5 : Int)] [5, 7, 2]
        (none : Option (List Int))).1 = true
    ∧ (decEx.step [3, 0] [(5 : Int)] [5, 7, 2]
        (none : Option (List Int))).2.queryLens
        = List.replicate decEx.layer_modules.length 1 :=
  C9_step_query_length decEx [3, 0] [5] [5, 7, 2] none (by decide) (by decide)
    (fun l hl => by cases hl) (fun _ => rfl)

/-- C10: in a decoder step under a recurrent time-encoding strategy, a
call with a present buffer passes None as the previous hidden state to the
recurrent time transformer (buffer[0] is never read for it), and a call
with buffer=None fails by subscripting None before reaching the layer
loop. -/
theorem C10_recurrent_step_hidden (dec : Decoder α τ β π) (input : List Nat)
    (context : List α) (src : List Nat)
    (h1 : dec.time = TimeKind.gru ∨ dec.time = TimeKind.lstm)
    (h2 : input ≠ []) :
    ((dec.step input context src (none : Option (List β))).1
        = .error .noneSubscript
      ∧ (dec.step input context src (none : Option (List β))).2.queryLens = [])
    ∧ ∀ l : List β, (dec.step input context src (some l)).2.timeArg
        = some (TimeStepArg.recurrent none) := by
  have hpos : ¬ dec.time = TimeKind.positional := by
    rcases h1 with h | h <;> rw [h] <;> intro hx <;> cases hx
  obtain ⟨lastTok, hlast⟩ : ∃ t, input.getLast? = some t := by
    cases hgl : input.getLast? with
    | none => exact absurd (List.getLast?_eq_none_iff.mp hgl) h2
    | some t => exact ⟨t, rfl⟩
  constructor
  · simp only [Decoder.step, hlast, if_neg hpos]
    exact ⟨trivial, trivial⟩
  · intro l
    simp only [Decoder.step, hlast, if_neg hpos]
    cases l with
    | nil => rfl
    | cons b bs => rfl

/-- Evaluation of C10 on the concrete recurrent (gru) decoder, with an
absent buffer and with a present one-slot buffer. -/
theorem C10_recurrent_step_hidden_witness :
    ((decExRec.step [3, 0] [(5 : Int)] [5, 7, 2]
        (none : Option (List Int))).1 = .error .noneSubscript
      ∧ (decExRec.step [3, 0] [(5 : Int)] [5, 7, 2]
        (none : Option (List Int))).2.queryLens = [])
    ∧ (decExRec.step [3, 0] [(5 : Int)] [5, 7, 2]
        (some [0])).2.timeArg = some (TimeStepArg.recurrent none) :=
  ⟨(C10_recurrent_step_hidden decExRec [3, 0] [5] [5, 7, 2]
      (Or.inl rfl) (by decide)).1,
   (C10_recurrent_step_hidden decExRec [3, 0] [5] [5, 7, 2]
      (Or.inl rfl) (by decide)).2 [0]⟩

end ParallelTransformer
